import Mathlib

/-!
# Verification of the Sum-Merge puzzle game core

Shallow embedding of the game-state logic of the repository
(`src/utils/gameUtils.ts` and the `App` component's handlers and effects),
together with proofs of the specified properties.

Randomness (`Math.random` in `createBlock` and `generateTargetSum`) is
modelled by passing the generated ids/values/targets in as oracle
parameters; everything else is translated directly from the source.
-/

namespace SumMerge

/-- A numbered tile, as in `src/types.ts` (the presentation-only optional
`isRemoving` flag is never read by the game logic and is omitted). -/
structure Block where
  id : String
  value : Int
  row : Nat
  col : Nat
  deriving DecidableEq, Repr

inductive GameMode where
  | classic
  | time
  deriving DecidableEq, Repr

inductive GameStatus where
  | idle
  | playing
  | paused
  | gameover
  deriving DecidableEq, Repr

/-- Modelled from the spec: the configuration constants of
`src/constants.ts`, a file not present under `src/`; the spec fixes no
values ("compile-time/config, not runtime-mutable"), so they stay abstract. -/
structure Config where
  GRID_COLS : Nat
  GRID_ROWS_MAX : Nat
  INITIAL_ROWS : Nat
  TIME_LIMIT : Rat

/-- `createBlock(row, col)` from `gameUtils.ts`; the randomly generated
`(id, value)` pair is supplied by the caller's oracle. -/
def createBlock (idv : String × Int) (row col : Nat) : Block :=
  { id := idv.1, value := idv.2, row := row, col := col }

/-- `generateInitialBlocks(rows)` from `gameUtils.ts`: rows `0..rows-1`,
columns `0..GRID_COLS-1`, fresh random blocks from the oracle `gen`. -/
def generateInitialBlocks (gen : Nat → Nat → String × Int) (cols rows : Nat) :
    List Block :=
  (List.range rows).flatMap fun r =>
    (List.range cols).map fun c => createBlock (gen r c) r c

/-- `addNewRow(blocks)` from `gameUtils.ts`: shift every existing block up
by one row, then append a fresh row at `row = 0`. -/
def addNewRow (gen : Nat → String × Int) (cols : Nat) (blocks : List Block) :
    List Block :=
  (blocks.map fun b => { b with row := b.row + 1 }) ++
    (List.range cols).map fun c => createBlock (gen c) 0 c

/-- `checkGameOver(blocks, maxRows)` from `gameUtils.ts`:
`blocks.some(b => b.row >= maxRows)`. -/
def checkGameOver (blocks : List Block) (maxRows : Nat) : Bool :=
  blocks.any fun b => decide (b.row ≥ maxRows)

/-- The full component state of `App` that the game logic reads or writes. -/
structure GameState where
  blocks : List Block
  targetSum : Int
  score : Int
  highScore : Int
  status : GameStatus
  mode : GameMode
  timeLeft : Rat
  selectedIds : List String
  isWrong : Bool
  deriving DecidableEq, Repr

/-- `startGame(selectedMode)` from `App`; the random initial grid and
target come from the oracles. -/
def startGame (cfg : Config) (gen : Nat → Nat → String × Int) (target : Int)
    (selectedMode : GameMode) (s : GameState) : GameState :=
  { s with
    blocks := generateInitialBlocks gen cfg.GRID_COLS cfg.INITIAL_ROWS
    targetSum := target
    score := 0
    status := .playing
    mode := selectedMode
    timeLeft := cfg.TIME_LIMIT
    selectedIds := [] }

/-- `resetGame()` from `App`. -/
def resetGame (s : GameState) : GameState :=
  { s with status := .idle, blocks := [], selectedIds := [] }

/-- `handleBlockClick(id)` from `App`. -/
def handleBlockClick (id : String) (s : GameState) : GameState :=
  if s.status ≠ .playing then s
  else
    { s with
      selectedIds :=
        if s.selectedIds.contains id then
          s.selectedIds.filter fun i => i != id
        else
          s.selectedIds ++ [id] }

/-- The running sum of the selection-check effect in `App`:
`selectedIds.reduce((sum, id) => sum + (blocks.find(b => b.id === id)?.value || 0), 0)`.
For integer values the JavaScript `?.value || 0` is exactly
"the found block's value, else 0". -/
def selectionSum (selectedIds : List String) (blocks : List Block) : Int :=
  selectedIds.foldl
    (fun sum id => sum + (((blocks.find? fun b => b.id == id).map Block.value).getD 0))
    0

/-- The three outcomes of the selection check. -/
inductive Signal where
  | success
  | overshoot
  | pending
  deriving DecidableEq, Repr

/-- The branch taken by the selection-check effect in `App` on a non-empty
selection: `sum === targetSum` first, then `sum > targetSum`, else nothing. -/
def evaluate (selectedIds : List String) (blocks : List Block) (targetSum : Int) :
    Signal :=
  let currentSum := selectionSum selectedIds blocks
  if currentSum = targetSum then .success
  else if currentSum > targetSum then .overshoot
  else .pending

/-- `handleSuccess()` from `App`; `gen` supplies the random new row used in
classic mode and `newTarget` the next random target. -/
def handleSuccess (cfg : Config) (gen : Nat → String × Int) (newTarget : Int)
    (s : GameState) : GameState :=
  let points : Int :=
    s.selectedIds.length * 10 + (if s.mode = .time then ⌊s.timeLeft⌋ else 0)
  let remaining := s.blocks.filter fun b => !(s.selectedIds.contains b.id)
  let blocksStatus : List Block × GameStatus :=
    if s.mode = .classic then
      let withNewRow := addNewRow gen cfg.GRID_COLS remaining
      (withNewRow,
        if checkGameOver withNewRow cfg.GRID_ROWS_MAX then .gameover else s.status)
    else (remaining, s.status)
  { s with
    score := s.score + points
    blocks := blocksStatus.1
    status := blocksStatus.2
    selectedIds := []
    targetSum := newTarget
    timeLeft := if s.mode = .time then cfg.TIME_LIMIT else s.timeLeft
    highScore :=
      if s.score + points > s.highScore then s.score + points else s.highScore }

/-- The transient wrong-flag of the overshoot branch (`setIsWrong(true)`). -/
def overshootMark (s : GameState) : GameState :=
  { s with isWrong := true }

/-- The delayed part of the overshoot branch, 500ms later:
`setIsWrong(false); setSelectedIds([])`. -/
def overshootResolve (s : GameState) : GameState :=
  { s with isWrong := false, selectedIds := [] }

/-- The selection-check effect of `App` as one step: no-op on an empty
selection, otherwise dispatch on the computed sum; the overshoot branch is
taken through to its delayed resolution. -/
def checkSelection (cfg : Config) (gen : Nat → String × Int) (newTarget : Int)
    (s : GameState) : GameState :=
  if s.selectedIds.isEmpty then s
  else
    match evaluate s.selectedIds s.blocks s.targetSum with
    | .success => handleSuccess cfg gen newTarget s
    | .overshoot => overshootResolve (overshootMark s)
    | .pending => s

/-- One 100ms tick of the time-mode interval in `App`: the interval only
exists while `status === 'playing' && mode === 'time'`; a tick at
`timeLeft <= 0` adds a row (with game-over check) and resets the clock,
any other tick decrements by `0.1`. -/
def timerTick (cfg : Config) (gen : Nat → String × Int) (s : GameState) :
    GameState :=
  if s.status = .playing ∧ s.mode = .time then
    if s.timeLeft ≤ 0 then
      let withNewRow := addNewRow gen cfg.GRID_COLS s.blocks
      { s with
        blocks := withNewRow
        status :=
          if checkGameOver withNewRow cfg.GRID_ROWS_MAX then .gameover else s.status
        timeLeft := cfg.TIME_LIMIT }
    else { s with timeLeft := s.timeLeft - 1/10 }
  else s

/-- The pause button of `App`:
`setStatus(prev => prev === 'playing' ? 'paused' : 'playing')`. -/
def togglePause (s : GameState) : GameState :=
  { s with status := if s.status = .playing then .paused else .playing }

/-- The clear-selection button of `App`: `setSelectedIds([])`. -/
def clearSelection (s : GameState) : GameState :=
  { s with selectedIds := [] }

/-- The user-visible operations of a session, each carrying the random
oracles the corresponding handler consumes. -/
inductive Op where
  | start (gen : Nat → Nat → String × Int) (target : Int) (m : GameMode)
  | click (id : String)
  | success (gen : Nat → String × Int) (target : Int)
  | tick (gen : Nat → String × Int)
  | pause
  | reset
  | retry (gen : Nat → Nat → String × Int) (target : Int)

/-- Dispatch an operation to its handler; `retry` is `startGame` with the
session's current mode, as in the game-over screen's button. -/
def Op.apply (cfg : Config) : Op → GameState → GameState
  | .start gen target m, s => startGame cfg gen target m s
  | .click id, s => handleBlockClick id s
  | .success gen target, s => handleSuccess cfg gen target s
  | .tick gen, s => timerTick cfg gen s
  | .pause, s => togglePause s
  | .reset, s => resetGame s
  | .retry gen target, s => startGame cfg gen target s.mode s

section Lemmas

lemma addNewRow_length (gen : Nat → String × Int) (cols : Nat)
    (blocks : List Block) :
    (addNewRow gen cols blocks).length = blocks.length + cols := by
  simp [addNewRow]

lemma length_filter_add_length_filter_not {α : Type} (p : α → Bool)
    (l : List α) :
    (l.filter p).length + (l.filter fun a => !(p a)).length = l.length := by
  induction l with
  | nil => simp
  | cons a l ih =>
    by_cases h : p a <;> simp [h] <;> omega

lemma addNewRow_take (gen : Nat → String × Int) (cols : Nat)
    (blocks : List Block) :
    (addNewRow gen cols blocks).take blocks.length
      = blocks.map fun b => { b with row := b.row + 1 } :=
  List.take_left' (by simp)

lemma addNewRow_drop (gen : Nat → String × Int) (cols : Nat)
    (blocks : List Block) :
    (addNewRow gen cols blocks).drop blocks.length
      = (List.range cols).map fun c => createBlock (gen c) 0 c :=
  List.drop_left' (by simp)

lemma contains_cons_eq (a b : String) (l : List String) :
    (a :: l).contains b = ((b == a) || l.contains b) := rfl

/-- Removing from `blocks` the blocks whose id lies in a duplicate-free
selection whose every id matches exactly one block removes exactly one
block per selected id. -/
lemma filter_single_occurrence :
    ∀ (sel : List String) (blocks : List Block), sel.Nodup →
      (∀ id ∈ sel, (blocks.filter fun b => b.id == id).length = 1) →
      (blocks.filter fun b => !(sel.contains b.id)).length + sel.length
        = blocks.length := by
  intro sel
  induction sel with
  | nil =>
    intro blocks _ _
    simp
  | cons id rest ih =>
    intro blocks hnd h1
    obtain ⟨hid, hrest⟩ := List.nodup_cons.mp hnd
    have hone := h1 id (List.mem_cons_self id rest)
    have hpart := length_filter_add_length_filter_not
      (fun b => b.id == id) blocks
    have hsplit : (blocks.filter fun b => !((id :: rest).contains b.id))
        = (blocks.filter fun b => !(b.id == id)).filter
            fun b => !(rest.contains b.id) := by
      rw [List.filter_filter]
      apply List.filter_congr
      intro b _
      rw [contains_cons_eq]
      cases hb : (b.id == id) <;> cases hr : rest.contains b.id <;>
        simp [hb, hr]
    have h1' : ∀ id' ∈ rest,
        ((blocks.filter fun b => !(b.id == id)).filter
            fun b => b.id == id').length = 1 := by
      intro id' hid'
      have hne : id' ≠ id := fun hEq => hid (hEq ▸ hid')
      rw [List.filter_filter]
      have hpred : (fun b : Block => (b.id == id') && !(b.id == id))
          = fun b : Block => b.id == id' := by
        funext b
        cases hb : (b.id == id')
        · simp
        · have hb' : b.id = id' := eq_of_beq hb
          have hbid : (b.id == id) = false := by
            rw [hb']
            exact beq_false_of_ne hne
          simp [hbid]
      rw [hpred]
      exact h1 id' (List.mem_cons_of_mem id hid')
    have ihr := ih (blocks.filter fun b => !(b.id == id)) hrest h1'
    rw [hsplit]
    simp only [List.length_cons]
    omega

end Lemmas

/-- C3: after a success in classic mode, with every selected id matching
exactly one block and the selection duplicate-free (the data model keeps
`selectedIds` unique), the new grid has
`(previous size − |S|) + GRID_COLS` blocks; and whenever the resulting
grid has a block at `row ≥ GRID_ROWS_MAX` the status becomes `gameover`. -/
theorem handleSuccess_classic_grid (cfg : Config) (gen : Nat → String × Int)
    (newTarget : Int) (s : GameState)
    (hm : s.mode = .classic)
    (hnd : s.selectedIds.Nodup)
    (h1 : ∀ id ∈ s.selectedIds,
        (s.blocks.filter fun b => b.id == id).length = 1) :
    s.selectedIds.length ≤ s.blocks.length ∧
    (handleSuccess cfg gen newTarget s).blocks.length
        = (s.blocks.length - s.selectedIds.length) + cfg.GRID_COLS ∧
    (checkGameOver (handleSuccess cfg gen newTarget s).blocks cfg.GRID_ROWS_MAX
        = true → (handleSuccess cfg gen newTarget s).status = .gameover) := by
  have hcount := filter_single_occurrence s.selectedIds s.blocks hnd h1
  have hcount' :
      (s.blocks.filter fun b => !(decide (b.id ∈ s.selectedIds))).length
        + s.selectedIds.length = s.blocks.length := by
    simpa using hcount
  refine ⟨by omega, ?_, ?_⟩
  · simp only [handleSuccess, hm, if_pos]
    rw [addNewRow_length]
    simp
    omega
  · intro hov
    simp only [handleSuccess, hm, if_pos] at hov ⊢
    simp only [hov]
    simp

/-- C5: after a success in time mode, with every selected id matching
exactly one block and the selection duplicate-free, no row is added — the
new grid has `previous size − |S|` blocks — and `timeLeft` resets to
`TIME_LIMIT`. -/
theorem handleSuccess_time_grid (cfg : Config) (gen : Nat → String × Int)
    (newTarget : Int) (s : GameState)
    (hm : s.mode = .time)
    (hnd : s.selectedIds.Nodup)
    (h1 : ∀ id ∈ s.selectedIds,
        (s.blocks.filter fun b => b.id == id).length = 1) :
    s.selectedIds.length ≤ s.blocks.length ∧
    (handleSuccess cfg gen newTarget s).blocks.length
        = s.blocks.length - s.selectedIds.length ∧
    (handleSuccess cfg gen newTarget s).timeLeft = cfg.TIME_LIMIT := by
  have hcount := filter_single_occurrence s.selectedIds s.blocks hnd h1
  have hcount' :
      (s.blocks.filter fun b => !(decide (b.id ∈ s.selectedIds))).length
        + s.selectedIds.length = s.blocks.length := by
    simpa using hcount
  refine ⟨by omega, ?_, ?_⟩
  · simp only [handleSuccess, hm]
    simp
    omega
  · simp [handleSuccess, hm]

/-- C2: `addNewRow` keeps every pre-existing block's `id`, `value` and
`col` and increments its `row` by exactly 1 (the first `blocks.length`
entries of the result are exactly the shifted originals, in order), and
appends exactly `GRID_COLS` fresh blocks at `row = 0`; nothing else is
added or removed (the result has exactly `blocks.length + GRID_COLS`
entries). -/
theorem addNewRow_preserves_and_appends (gen : Nat → String × Int)
    (cols : Nat) (blocks : List Block) :
    (addNewRow gen cols blocks).take blocks.length
        = blocks.map (fun b => { b with row := b.row + 1 }) ∧
    ((addNewRow gen cols blocks).drop blocks.length).length = cols ∧
    (∀ b ∈ (addNewRow gen cols blocks).drop blocks.length,
        b.row = 0 ∧ b.col < cols) ∧
    (addNewRow gen cols blocks).length = blocks.length + cols := by
  refine ⟨addNewRow_take gen cols blocks, ?_, ?_,
    addNewRow_length gen cols blocks⟩
  · rw [addNewRow_drop]
    simp
  · intro b hb
    rw [addNewRow_drop] at hb
    obtain ⟨c, hc, rfl⟩ := List.mem_map.mp hb
    exact ⟨rfl, List.mem_range.mp hc⟩

section SumLemmas

lemma selectionSum_foldl (blocks : List Block) (sel : List String) (a : Int) :
    sel.foldl
        (fun sum id =>
          sum + (((blocks.find? fun b => b.id == id).map Block.value).getD 0))
        a
      = a + (sel.map fun id =>
          ((blocks.find? fun b => b.id == id).map Block.value).getD 0).sum := by
  induction sel generalizing a with
  | nil => simp
  | cons x xs ih =>
    simp only [List.foldl_cons, List.map_cons, List.sum_cons, ih]
    ring

lemma selectionSum_eq_map_sum (sel : List String) (blocks : List Block) :
    selectionSum sel blocks
      = (sel.map fun id =>
          ((blocks.find? fun b => b.id == id).map Block.value).getD 0).sum := by
  simpa [selectionSum] using selectionSum_foldl blocks sel 0

end SumLemmas

/-- C9: the selection sum is a total function of the selection and block
list, and equals the sum of the values of the matching blocks: an id
matching no block contributes exactly 0, so appending a stale id leaves
the sum unchanged. -/
theorem selectionSum_total (sel : List String) (blocks : List Block) :
    selectionSum sel blocks
      = ((sel.filterMap fun id => blocks.find? fun b => b.id == id).map
          Block.value).sum ∧
    (∀ id, (blocks.find? fun b => b.id == id) = none →
      selectionSum (sel ++ [id]) blocks = selectionSum sel blocks) := by
  constructor
  · rw [selectionSum_eq_map_sum]
    induction sel with
    | nil => simp
    | cons x xs ih =>
      cases hf : blocks.find? fun b => b.id == x with
      | none => simp [List.filterMap_cons, hf, ih]
      | some b => simp [List.filterMap_cons, hf, ih]
  · intro id hf
    rw [selectionSum_eq_map_sum, selectionSum_eq_map_sum]
    simp [hf]

/-- C10: noninterference of unselected blocks — two block lists whose
lookups agree (same presence and value) on every selected id yield the
same selection sum and hence the same evaluation signal; blocks with
unselected ids never influence the outcome. -/
theorem evaluate_noninterference (sel : List String) (b1 b2 : List Block)
    (target : Int)
    (hagree : ∀ id ∈ sel,
        (b1.find? fun b => b.id == id).map Block.value
          = (b2.find? fun b => b.id == id).map Block.value) :
    selectionSum sel b1 = selectionSum sel b2 ∧
    evaluate sel b1 target = evaluate sel b2 target := by
  have hsum : selectionSum sel b1 = selectionSum sel b2 := by
    rw [selectionSum_eq_map_sum, selectionSum_eq_map_sum]
    apply congrArg List.sum
    apply List.map_eq_map_iff.mpr
    intro id hid
    rw [hagree id hid]
  exact ⟨hsum, by simp [evaluate, hsum]⟩

/-- C1: on a non-empty selection the evaluation signals Success iff the
selection sum equals the target, Overshoot iff it strictly exceeds the
target (the step then flags the selection wrong and clears it), and
Pending iff it is below the target (leaving the state unchanged); the
three signals are exhaustive and mutually exclusive since exactly one of
the three comparisons holds. -/
theorem evaluate_trichotomy (cfg : Config) (gen : Nat → String × Int)
    (newTarget : Int) (s : GameState) (hne : s.selectedIds ≠ []) :
    (evaluate s.selectedIds s.blocks s.targetSum = .success
        ↔ selectionSum s.selectedIds s.blocks = s.targetSum) ∧
    (evaluate s.selectedIds s.blocks s.targetSum = .overshoot
        ↔ selectionSum s.selectedIds s.blocks > s.targetSum) ∧
    (evaluate s.selectedIds s.blocks s.targetSum = .pending
        ↔ selectionSum s.selectedIds s.blocks < s.targetSum) ∧
    (evaluate s.selectedIds s.blocks s.targetSum = .success
        → checkSelection cfg gen newTarget s = handleSuccess cfg gen newTarget s) ∧
    (evaluate s.selectedIds s.blocks s.targetSum = .overshoot
        → checkSelection cfg gen newTarget s
            = { s with isWrong := false, selectedIds := [] }) ∧
    (evaluate s.selectedIds s.blocks s.targetSum = .pending
        → checkSelection cfg gen newTarget s = s) := by
  have hempty : s.selectedIds.isEmpty = false := by
    cases hsel : s.selectedIds with
    | nil => exact absurd hsel hne
    | cons a l => rfl
  rcases lt_trichotomy (selectionSum s.selectedIds s.blocks) s.targetSum with
    hlt | heq | hgt
  · have hev : evaluate s.selectedIds s.blocks s.targetSum = .pending := by
      simp [evaluate, ne_of_lt hlt, not_lt.mpr (le_of_lt hlt)]
    simp [hev, checkSelection, hempty, hlt, ne_of_lt hlt,
      not_lt.mpr (le_of_lt hlt)]
  · have hev : evaluate s.selectedIds s.blocks s.targetSum = .success := by
      simp [evaluate, heq]
    simp [hev, checkSelection, hempty, heq]
  · have hev : evaluate s.selectedIds s.blocks s.targetSum = .overshoot := by
      simp [evaluate, ne_of_gt hgt, hgt]
    simp [hev, checkSelection, hempty, hgt, ne_of_gt hgt,
      not_lt.mpr (le_of_lt hgt), overshootResolve, overshootMark]

/-- C6: on every success the awarded points are
`selectedIds.length * 10` plus `⌊timeLeft⌋` in time mode and `0` in
classic mode; the new score is the previous score plus these points, and
the stored high score becomes the new score exactly when the new score
strictly exceeds it, else stays. -/
theorem handleSuccess_scoring (cfg : Config) (gen : Nat → String × Int)
    (newTarget : Int) (s : GameState) :
    (handleSuccess cfg gen newTarget s).score
        = s.score + (s.selectedIds.length * 10
            + (if s.mode = .time then ⌊s.timeLeft⌋ else 0)) ∧
    (handleSuccess cfg gen newTarget s).highScore
        = if (handleSuccess cfg gen newTarget s).score > s.highScore
          then (handleSuccess cfg gen newTarget s).score
          else s.highScore := by
  constructor <;> simp [handleSuccess]

/-- C8: clicking a block while playing toggles its id in the selection —
if present it is removed (and every other id keeps its multiplicity), if
absent it is appended at the end; outside `playing` the click changes
nothing at all. -/
theorem handleBlockClick_toggle (s : GameState) (id : String) :
    (s.status = .playing → id ∈ s.selectedIds →
        (id ∉ (handleBlockClick id s).selectedIds ∧
          ∀ j, j ≠ id →
            (handleBlockClick id s).selectedIds.count j
              = s.selectedIds.count j)) ∧
    (s.status = .playing → id ∉ s.selectedIds →
        (handleBlockClick id s).selectedIds = s.selectedIds ++ [id]) ∧
    (s.status ≠ .playing → handleBlockClick id s = s) := by
  refine ⟨?_, ?_, ?_⟩
  · intro hst hid
    have hfil : (handleBlockClick id s).selectedIds
        = s.selectedIds.filter fun i => i != id := by
      simp [handleBlockClick, hst, hid]
    constructor
    · rw [hfil]
      simp
    · intro j hj
      rw [hfil]
      exact List.count_filter (by simp [hj])
  · intro hst hid
    simp [handleBlockClick, hst, hid]
  · intro hst
    simp [handleBlockClick, hst]

section TickLemmas

/-- Counting down from one second: the first ten ticks only decrement,
by a tenth each. -/
lemma timerTick_countdown (cfg : Config) (gen : Nat → String × Int)
    (s : GameState) (hs : s.status = .playing) (hm : s.mode = .time)
    (ht : s.timeLeft = 1) :
    ∀ k, k ≤ 10 →
      (timerTick cfg gen)^[k] s = { s with timeLeft := 1 - (k : Rat)/10 } := by
  intro k
  induction k with
  | zero =>
    intro _
    have h0 : (1 : Rat) - (0 : Nat)/10 = s.timeLeft := by
      rw [ht]; norm_num
    rw [Function.iterate_zero_apply, h0]
  | succ k ih =>
    intro hk
    have hk' : k ≤ 10 := by omega
    rw [Function.iterate_succ_apply', ih hk']
    have hpos : (0 : Rat) < 1 - (k : Rat)/10 := by
      have hk9 : (k : Rat) ≤ 9 := by exact_mod_cast (by omega : k ≤ 9)
      linarith
    simp only [timerTick, hs, hm, and_self, if_true]
    rw [if_neg (by simp; linarith)]
    have harith : (1 : Rat) - (k : Rat)/10 - 1/10 = 1 - ((k + 1 : Nat) : Rat)/10 := by
      push_cast
      ring
    simp only [harith]

end TickLemmas

/-- C4: while playing in time mode every tick with positive `timeLeft`
decrements it by exactly `0.1` and changes nothing else; a tick at
`timeLeft ≤ 0` adds a row to the grid, sets status to `gameover` exactly
when the result overflows, and resets `timeLeft` to `TIME_LIMIT`; in
exact rational arithmetic, starting from `timeLeft = 1` the first ten
ticks only decrement, reaching exactly `0 ≤ 0`, and the following tick
performs the row add and the reset. -/
theorem timerTick_spec (cfg : Config) (gen : Nat → String × Int)
    (s : GameState) (hs : s.status = .playing) (hm : s.mode = .time) :
    (0 < s.timeLeft →
        timerTick cfg gen s = { s with timeLeft := s.timeLeft - 1/10 }) ∧
    (s.timeLeft ≤ 0 →
        timerTick cfg gen s =
          { s with
            blocks := addNewRow gen cfg.GRID_COLS s.blocks
            status :=
              if checkGameOver (addNewRow gen cfg.GRID_COLS s.blocks)
                  cfg.GRID_ROWS_MAX
              then .gameover else .playing
            timeLeft := cfg.TIME_LIMIT }) ∧
    (s.timeLeft = 1 →
        (timerTick cfg gen)^[10] s = { s with timeLeft := 0 } ∧
        (timerTick cfg gen)^[11] s =
          { s with
            blocks := addNewRow gen cfg.GRID_COLS s.blocks
            status :=
              if checkGameOver (addNewRow gen cfg.GRID_COLS s.blocks)
                  cfg.GRID_ROWS_MAX
              then .gameover else .playing
            timeLeft := cfg.TIME_LIMIT }) := by
  refine ⟨?_, ?_, ?_⟩
  · intro hpos
    simp only [timerTick, hs, hm, and_self, if_true]
    rw [if_neg (not_le.mpr hpos)]
  · intro hle
    simp only [timerTick, hs, hm, and_self, if_true, if_pos hle]
  · intro ht
    have h10 : (timerTick cfg gen)^[10] s = { s with timeLeft := 0 } := by
      have h := timerTick_countdown cfg gen s hs hm ht 10 (by omega)
      rw [h]
      norm_num
    refine ⟨h10, ?_⟩
    rw [show (11 : Nat) = 10 + 1 from rfl, Function.iterate_succ_apply', h10]
    simp only [timerTick, hs, hm, and_self, if_true]
    rw [if_pos (by norm_num)]

/-- C7: the stored high score never decreases under any session
operation: start, block click, success, timer tick, pause, reset or
retry. -/
theorem highScore_monotone (cfg : Config) (op : Op) (s : GameState) :
    s.highScore ≤ (Op.apply cfg op s).highScore := by
  cases op with
  | start gen target m => simp [Op.apply, startGame]
  | click id =>
    simp only [Op.apply, handleBlockClick]
    split <;> simp
  | success gen target =>
    simp only [Op.apply, handleSuccess]
    split <;> simp_all <;> omega
  | tick gen =>
    simp only [Op.apply, timerTick]
    split <;> [skip; simp]
    split <;> simp
  | pause => simp [Op.apply, togglePause]
  | reset => simp [Op.apply, resetGame]
  | retry gen target => simp [Op.apply, startGame]

section Fixtures

/-- A concrete configuration for evaluating the theorems. -/
def cfg1 : Config :=
  { GRID_COLS := 3, GRID_ROWS_MAX := 5, INITIAL_ROWS := 2, TIME_LIMIT := 30 }

/-- A concrete oracle for fresh rows. -/
def gen1 : Nat → String × Int := fun c => (String.append "new" (toString c), 1)

/-- A concrete grid with three distinct blocks. -/
def blocks1 : List Block :=
  [{ id := "a", value := 5, row := 0, col := 0 },
   { id := "b", value := 3, row := 0, col := 1 },
   { id := "c", value := 2, row := 1, col := 0 }]

/-- `blocks1` with an extra block whose id is never selected. -/
def blocks2 : List Block :=
  [{ id := "a", value := 5, row := 0, col := 0 },
   { id := "d", value := 9, row := 2, col := 2 }]

/-- A concrete classic-mode playing state with block `a` selected. -/
def state1 : GameState :=
  { blocks := blocks1, targetSum := 5, score := 0, highScore := 0,
    status := .playing, mode := .classic, timeLeft := 30,
    selectedIds := ["a"], isWrong := false }

/-- A concrete time-mode playing state with blocks `b` and `c` selected. -/
def state2 : GameState :=
  { state1 with mode := .time, timeLeft := 7/2, selectedIds := ["b", "c"] }

/-- A concrete time-mode playing state with one second on the clock. -/
def state3 : GameState :=
  { state1 with mode := .time, timeLeft := 1, selectedIds := [] }

end Fixtures

/-- Witness for C1: on `state1` (selection `a`, value 5, target 5) the
evaluation signals Success and the sum is 5. -/
theorem evaluate_trichotomy_witness :
    evaluate state1.selectedIds state1.blocks state1.targetSum = .success ∧
    selectionSum state1.selectedIds state1.blocks = state1.targetSum := by
  have h := evaluate_trichotomy cfg1 gen1 7 state1 (by decide)
  exact ⟨h.1.mpr (by decide), by decide⟩

/-- Witness for C3: on `state1` the success step in classic mode yields
`(3 − 1) + 3 = 5` blocks. -/
theorem handleSuccess_classic_grid_witness :
    (handleSuccess cfg1 gen1 7 state1).blocks.length = 5 := by
  have h := handleSuccess_classic_grid cfg1 gen1 7 state1 rfl (by decide)
    (by decide)
  simpa using h.2.1

/-- Witness for C5: on `state2` the success step in time mode yields
`3 − 2 = 1` block and resets the clock to 30. -/
theorem handleSuccess_time_grid_witness :
    (handleSuccess cfg1 gen1 9 state2).blocks.length = 1 ∧
    (handleSuccess cfg1 gen1 9 state2).timeLeft = 30 := by
  have h := handleSuccess_time_grid cfg1 gen1 9 state2 rfl (by decide)
    (by decide)
  exact ⟨by simpa using h.2.1, by simpa using h.2.2⟩

/-- Witness for C4: on `state3` (one second left) one tick leaves `9/10`,
ten ticks leave exactly `0`, and the eleventh resets to `TIME_LIMIT`. -/
theorem timerTick_spec_witness :
    (timerTick cfg1 gen1 state3).timeLeft = 9/10 ∧
    ((timerTick cfg1 gen1)^[10] state3).timeLeft = 0 ∧
    ((timerTick cfg1 gen1)^[11] state3).timeLeft = 30 := by
  have h := timerTick_spec cfg1 gen1 state3 rfl rfl
  obtain ⟨hdec, _, hsc⟩ := h
  obtain ⟨h10, h11⟩ := hsc rfl
  refine ⟨?_, ?_, ?_⟩
  · rw [hdec (by norm_num [state3, state1])]
    norm_num [state3, state1]
  · rw [h10]
  · rw [h11]
    rfl

/-- Witness for C8: clicking `a` on `state1` removes it from the
selection; clicking `b` appends it. -/
theorem handleBlockClick_toggle_witness :
    "a" ∉ (handleBlockClick "a" state1).selectedIds ∧
    (handleBlockClick "b" state1).selectedIds = ["a", "b"] := by
  have ha := handleBlockClick_toggle state1 "a"
  have hb := handleBlockClick_toggle state1 "b"
  exact ⟨(ha.1 rfl (by decide)).1, hb.2.1 rfl (by decide)⟩

/-- Witness for C9: appending the stale id `zz` to the selection leaves
the sum over `blocks1` unchanged. -/
theorem selectionSum_total_witness :
    selectionSum (["a"] ++ ["zz"]) blocks1 = selectionSum ["a"] blocks1 := by
  exact (selectionSum_total ["a"] blocks1).2 "zz" (by decide)

/-- Witness for C10: `blocks1` and `blocks2` agree on the selected id `a`,
so evaluation against target 5 gives the same signal on both. -/
theorem evaluate_noninterference_witness :
    evaluate ["a"] blocks1 5 = evaluate ["a"] blocks2 5 := by
  exact (evaluate_noninterference ["a"] blocks1 blocks2 5 (by decide)).2

end SumMerge
